import Mathlib

/-!
Verification of the field-extraction core of the Scannedform repository
(`src/App.jsx`).  The JavaScript helpers are shallowly embedded as pure Lean
functions over `String` / `List Char`:

* `normalizeText`, `splitLines` — the text normalizer and line splitter;
* a small backtracking matcher (`RE`, `jsMatch`) for the concrete regular
  expressions the code builds, modelling JavaScript `String.prototype.match`
  with one capture group (`m[1]`);
* `extractByRegexList`, `dotLeaderExtract`, `twoColumnExtract`, `pick` — the
  three label-value strategies and their composition;
* `detectTemplate`, `parseHandover`, `parseConsent`, `assembleFields` — the
  template classifier, the two schema parsers (field maps are association
  lists in insertion order, mirroring JS object literals) and the
  orchestrator's field-map assembly.

JavaScript truthiness on `null`/string values is modelled by `jsTruthy`
(`none` and `some ""` are falsy).  `toLowerCase` is modelled as ASCII case
folding, which coincides with JavaScript on all characters relevant to the
embedded keyword and label comparisons.
-/

namespace SF

/-- Code points that JavaScript's `\s` class (and `String.prototype.trim`)
treat as whitespace: TAB, LF, VT, FF, CR, SPACE, NBSP, Ogham space mark,
the `U+2000`–`U+200A` spaces, line/paragraph separators, narrow NBSP,
medium mathematical space, ideographic space and the BOM. -/
def isJsWs (c : Char) : Bool :=
  c.val = 9 || c.val = 10 || c.val = 11 || c.val = 12 || c.val = 13 ||
  c.val = 32 || c.val = 160 || c.val = 0x1680 ||
  (0x2000 ≤ c.val && c.val ≤ 0x200A) ||
  c.val = 0x2028 || c.val = 0x2029 || c.val = 0x202F || c.val = 0x205F ||
  c.val = 0x3000 || c.val = 0xFEFF

/-- ASCII case folding; models `toLowerCase` / the `i` regex flag on the
ASCII labels and keywords used by the code. -/
def lowCh (c : Char) : Char :=
  if c.val ≥ 65 && c.val ≤ 90 then Char.ofNat (c.toNat + 32) else c

/-- Lower-case every character of a list (model of `s.toLowerCase()`). -/
def lowList (l : List Char) : List Char := l.map lowCh

/-- Global single-character replacement, as in `s.replace(/a/g, "b")`. -/
def replCh (a b : Char) (l : List Char) : List Char :=
  l.map fun c => if c = a then b else c

/-- Whitespace matched by `[^\S\r\n]`: JS whitespace except CR and LF. -/
def isGapWs (c : Char) : Bool := isJsWs c && !(c = '\r') && !(c = '\n')

/-- Helper for `collapseWs`; the flag records whether we are inside a run
of `[^\S\r\n]` characters (the run was already replaced by one space). -/
def collapseWsAux : Bool → List Char → List Char
  | _, [] => []
  | inRun, c :: cs =>
    if isGapWs c then
      if inRun then collapseWsAux true cs else ' ' :: collapseWsAux true cs
    else c :: collapseWsAux false cs

/-- Model of `.replace(/[^\S\r\n]+/g, " ")`: every maximal run of
non-newline whitespace becomes a single space. -/
def collapseWs (l : List Char) : List Char := collapseWsAux false l

/-- The replacement text `" ... "` of the dot-run rule. -/
def dotsTok : List Char := [' ', '.', '.', '.', ' ']

/-- Helper for `replDots`; the `Nat` argument counts pending `.` characters
already read but not yet emitted. -/
def replDotsAux : Nat → List Char → List Char
  | 0, [] => []
  | 1, [] => ['.']
  | _+2, [] => dotsTok
  | n, '.' :: cs => replDotsAux (n + 1) cs
  | 0, c :: cs => c :: replDotsAux 0 cs
  | 1, c :: cs => '.' :: c :: replDotsAux 0 cs
  | _+2, c :: cs => dotsTok ++ c :: replDotsAux 0 cs

/-- Model of `.replace(/\.{2,}/g, " ... ")`: every maximal run of two or
more periods becomes `" ... "`; single periods are kept. -/
def replDots (l : List Char) : List Char := replDotsAux 0 l

/-- Model of JavaScript `String.prototype.trim` on character lists. -/
def trimL (l : List Char) : List Char :=
  ((l.dropWhile isJsWs).reverse.dropWhile isJsWs).reverse

/-- Trim a character list and repack it as a string (`m[1].trim()` etc.). -/
def trimS (l : List Char) : String := ⟨trimL l⟩

/-- The text normalizer (`normalizeText`, App.jsx lines 80–88): CR→LF,
TAB→space, NBSP→space, bullet `U+2022`→`.`, collapse non-newline
whitespace runs, rewrite dot runs to `" ... "`, then trim. -/
def normalizeText (s : String) : String :=
  ⟨trimL (replDots (collapseWs
    (replCh (Char.ofNat 0x2022) '.'
      (replCh (Char.ofNat 160) ' '
        (replCh '\t' ' '
          (replCh '\r' '\n' s.data))))))⟩

mutual

/-- Helper for `rawSegments`: accumulate the current segment (reversed). -/
def snlAux (cur : List Char) : List Char → List (List Char)
  | [] => [cur.reverse]
  | c :: cs =>
    if c = '\n' then cur.reverse :: snlSkip cs else snlAux (c :: cur) cs

/-- Helper for `rawSegments`: inside a run of newline separators. -/
def snlSkip : List Char → List (List Char)
  | [] => [[]]
  | c :: cs => if c = '\n' then snlSkip cs else snlAux [c] cs

end

/-- Model of `text.split(/\n+/)`: split on maximal runs of newlines. -/
def rawSegments (text : String) : List String :=
  (snlAux [] text.data).map fun l => (⟨l⟩ : String)

/-- JS `trim` on strings. -/
def trimStr (s : String) : String := ⟨trimL s.data⟩

/-- The line splitter (`splitLines`, App.jsx lines 90–94): split on runs of
newlines, trim each segment, drop the falsy (empty) ones. -/
def splitLines (text : String) : List String :=
  ((rawSegments text).map trimStr).filter fun l => l ≠ ""

/-- Does `needle` occur as a contiguous run inside `hay`?  Models JS
`String.prototype.includes`. -/
def subList (needle : List Char) : List Char → Bool
  | [] => needle.isEmpty
  | c :: cs => needle.isPrefixOf (c :: cs) || subList needle cs

/-- Case-sensitive substring test (JS `includes`). -/
def containsStr (hay needle : String) : Bool := subList needle.data hay.data

/-- Model of `hay.toLowerCase().includes(needle.toLowerCase())`. -/
def containsCI (hay needle : String) : Bool :=
  subList (lowList needle.data) (lowList hay.data)

/-- JavaScript truthiness of a `string | null` value: `null` and the empty
string are falsy. -/
def jsTruthy : Option String → Bool
  | none => false
  | some s => !(s == "")

/-- Model of `a || b` on `string | null` values. -/
def jsOr (a b : Option String) : Option String := if jsTruthy a then a else b

/-- Abstract syntax for the regular expressions the code uses: character
classes, sequencing, alternation, greedy option, greedy or lazy bounded
repetition of a character class, one capture group, and the end anchor. -/
inductive RE where
  | emp : RE
  | ch (p : Char → Bool) : RE
  | seq (a b : RE) : RE
  | alt (a b : RE) : RE
  | opt (a : RE) : RE
  | repCls (p : Char → Bool) (lo : Nat) (hi : Option Nat) (lz : Bool) : RE
  | grp (a : RE) : RE
  | eos : RE

/-- Try the continuation on each candidate repetition count in order. -/
def tryCounts (k : Nat → Option (Option (List Char))) :
    List Nat → Option (Option (List Char))
  | [] => none
  | n :: ns => (k n).orElse fun _ => tryCounts k ns

/-- Candidate repetition counts for `p{lo,hi}` given the length `run` of
the maximal run of class characters ahead: greedy tries long-to-short,
lazy short-to-long. -/
def repCounts (lo : Nat) (hi : Option Nat) (lz : Bool) (run : Nat) : List Nat :=
  let top := match hi with
    | some h => Nat.min run h
    | none => run
  let cands := (List.range (top + 1 - lo)).map (· + lo)
  if lz then cands else cands.reverse

/-- Backtracking matcher in continuation-passing style: `mat r cs cap k`
matches `r` against a prefix of `cs` with current group-1 value `cap`,
calling `k rest cap` for each way of matching until one succeeds — the
same backtracking order as the JavaScript engine (left alternative first,
greedy repetition longest-first, lazy shortest-first). -/
def mat : RE → List Char → Option (List Char) →
    (List Char → Option (List Char) → Option (Option (List Char))) →
    Option (Option (List Char))
  | .emp, cs, cap, k => k cs cap
  | .ch p, cs, cap, k =>
    match cs with
    | [] => none
    | c :: cs' => if p c then k cs' cap else none
  | .seq a b, cs, cap, k => mat a cs cap fun cs' cap' => mat b cs' cap' k
  | .alt a b, cs, cap, k => (mat a cs cap k).orElse fun _ => mat b cs cap k
  | .opt a, cs, cap, k => (mat a cs cap k).orElse fun _ => k cs cap
  | .grp a, cs, cap, k =>
    mat a cs cap fun cs' _ => k cs' (some (cs.take (cs.length - cs'.length)))
  | .eos, cs, cap, k => if cs.isEmpty then k cs cap else none
  | .repCls p lo hi lz, cs, cap, k =>
    tryCounts (fun n => k (cs.drop n) cap)
      (repCounts lo hi lz (cs.takeWhile p).length)

/-- Attempt the regex at the start of `cs`; `some m1` when it matches,
where `m1` models `m[1]` (`none` = group did not participate). -/
def execAt (r : RE) (cs : List Char) : Option (Option (List Char)) :=
  mat r cs none fun _ cap => some cap

/-- Model of `text.match(r)` restricted to what the code observes: the
leftmost match position wins and `m[1]` is reported. -/
def jsMatch (r : RE) : List Char → Option (Option (List Char))
  | [] => execAt r []
  | c :: cs => (execAt r (c :: cs)).orElse fun _ => jsMatch r cs

/-- Case-insensitive single-character literal (every regex in the code
carries the `i` flag). -/
def chCI (c : Char) : RE := .ch fun x => lowCh x == lowCh c

/-- Case-insensitive literal word. -/
def litCI (s : String) : RE := s.data.foldr (fun c r => .seq (chCI c) r) .emp

/-- Sequence a list of subpatterns. -/
def seqs (l : List RE) : RE := l.foldr .seq .emp

/-- Greedy `p*`. -/
def rep0 (p : Char → Bool) : RE := .repCls p 0 none false

/-- Greedy `p+`. -/
def rep1 (p : Char → Bool) : RE := .repCls p 1 none false

/-- The class `[0-9]` (also JS `\d`). -/
def isDigit (c : Char) : Bool := '0' ≤ c && c ≤ '9'

/-- The class `[A-Za-z]`. -/
def isAlpha (c : Char) : Bool := ('a' ≤ c && c ≤ 'z') || ('A' ≤ c && c ≤ 'Z')

/-- JS `.` without the `s` flag: any character except line terminators. -/
def isDotCh (c : Char) : Bool :=
  !(c = '\n') && !(c = '\r') && !(c.val = 0x2028) && !(c.val = 0x2029)

/-- The class `[:\s]`. -/
def colonWs (c : Char) : Bool := c = ':' || isJsWs c

/-- The class `[^\n]`. -/
def notNl (c : Char) : Bool := !(c = '\n')

/-- The class `[^:\n]`. -/
def notColonNl (c : Char) : Bool := !(c = ':') && !(c = '\n')

/-- The class `[^,\n]`. -/
def notCommaNl (c : Char) : Bool := !(c = ',') && !(c = '\n')

/-- The apostrophe character (appears in several name classes). -/
def apos : Char := Char.ofNat 39

/-- The class `[A-Za-z0-9\s,.'\-\/]` of the handover patient-name regex. -/
def clsHName (c : Char) : Bool :=
  isAlpha c || isDigit c || isJsWs c || c = ',' || c = '.' || c = apos ||
  c = '-' || c = '/'

/-- The class `[:\.\s\-]` after `Patient\s*Name` in the handover regex. -/
def clsHNameSep (c : Char) : Bool := c = ':' || c = '.' || isJsWs c || c = '-'

/-- The class `[A-Za-z0-9\-\/]` of the UHID regexes. -/
def clsUhid (c : Char) : Bool := isAlpha c || isDigit c || c = '-' || c = '/'

/-- The class `[A-Za-z0-9\/\-\: ]` of the date-of regexes. -/
def clsDate (c : Char) : Bool :=
  isAlpha c || isDigit c || c = '/' || c = '-' || c = ':' || c = ' '

/-- The class `[A-Za-z0-9\/\s]` (diabetic/diet, foleys, IV, blood, wound). -/
def clsWordSlash (c : Char) : Bool :=
  isAlpha c || isDigit c || c = '/' || isJsWs c

/-- The class `[A-Za-z0-9\-\.,\/\s]` of the recommendation regexes. -/
def clsReco (c : Char) : Bool :=
  isAlpha c || isDigit c || c = '-' || c = '.' || c = ',' || c = '/' || isJsWs c

/-- The class `[A-Za-z0-9\s,'\-\/]` of the consent name regexes. -/
def clsCName (c : Char) : Bool :=
  isAlpha c || isDigit c || isJsWs c || c = ',' || c = apos || c = '-' || c = '/'

/-- The class `[:\.\s\-_]` of the consent patient-name regex. -/
def clsCNameSep (c : Char) : Bool :=
  c = ':' || c = '.' || isJsWs c || c = '-' || c = '_'

/-- The class `[0-9\-\+\s]` of the contact regexes. -/
def clsPhone (c : Char) : Bool := isDigit c || c = '-' || c = '+' || isJsWs c

/-- The class `[A-Za-z0-9\/\-\s]` of the consent fallback date regex. -/
def clsDate2 (c : Char) : Bool :=
  isAlpha c || isDigit c || c = '/' || c = '-' || isJsWs c

/-- The class `[\/\-\.\s]` separating day, month, year. -/
def clsDSep (c : Char) : Bool := c = '/' || c = '-' || c = '.' || isJsWs c

/-- The class `[A-Za-z0-9\,\s\-\(\)\/]` of the diagnosis regexes. -/
def clsDiag (c : Char) : Bool :=
  isAlpha c || isDigit c || c = ',' || isJsWs c || c = '-' || c = '(' ||
  c = ')' || c = '/'

/-- The class `[A-Za-z0-9\,\-\s]` of the treatment regexes. -/
def clsTreat (c : Char) : Bool :=
  isAlpha c || isDigit c || c = ',' || c = '-' || isJsWs c

/-- Regex `/Patient\s*Name[:\.\s\-]*([A-Za-z0-9\s,.'\-\/]+)/i`. -/
def reHName : RE :=
  seqs [litCI "Patient", rep0 isJsWs, litCI "Name", rep0 clsHNameSep,
    .grp (rep1 clsHName)]

/-- Regex `/UHID[^:\n]*[:\s]*([A-Za-z0-9\-\/]+)/i`. -/
def reUhidA : RE :=
  seqs [litCI "UHID", rep0 notColonNl, rep0 colonWs, .grp (rep1 clsUhid)]

/-- Regex `/UHID\s*No[^:\n]*[:\s]*([A-Za-z0-9\-\/]+)/i`. -/
def reHUhidB : RE :=
  seqs [litCI "UHID", rep0 isJsWs, litCI "No", rep0 notColonNl, rep0 colonWs,
    .grp (rep1 clsUhid)]

/-- Regex `/Date\s*of\s*Admission[:\s]*([A-Za-z0-9\/\-\: ]{3,30})/i`. -/
def reHDoa : RE :=
  seqs [litCI "Date", rep0 isJsWs, litCI "of", rep0 isJsWs, litCI "Admission",
    rep0 colonWs, .grp (.repCls clsDate 3 (some 30) false)]

/-- Regex `/Date\s*of\s*Surgery[:\s]*([A-Za-z0-9\/\-\: ]{3,30})/i`. -/
def reHDos : RE :=
  seqs [litCI "Date", rep0 isJsWs, litCI "of", rep0 isJsWs, litCI "Surgery",
    rep0 colonWs, .grp (.repCls clsDate 3 (some 30) false)]

/-- Regex `/Time[:\s]*([0-2]?[0-9]:?[0-5]?[0-9]?)/i`. -/
def reHTime : RE :=
  seqs [litCI "Time", rep0 colonWs,
    .grp (seqs [.opt (.ch fun c => '0' ≤ c && c ≤ '2'), .ch isDigit,
      .opt (.ch fun c => c = ':'), .opt (.ch fun c => '0' ≤ c && c ≤ '5'),
      .opt (.ch isDigit)])]

/-- Regex `/Age[:\s]*([0-9]{1,3})/i`. -/
def reHAge : RE :=
  seqs [litCI "Age", rep0 colonWs, .grp (.repCls isDigit 1 (some 3) false)]

/-- Regex `/Surgery\s*Name[:\s]*(.+?)(?:\n|$)/i`. -/
def reHSurgName : RE :=
  seqs [litCI "Surgery", rep0 isJsWs, litCI "Name", rep0 colonWs,
    .grp (.repCls isDotCh 1 none true), .alt (.ch fun c => c = '\n') .eos]

/-- Regex `/Patient\s*Condition[:\s]*(.+?)(?:\n|$)/i`. -/
def reHPc : RE :=
  seqs [litCI "Patient", rep0 isJsWs, litCI "Condition", rep0 colonWs,
    .grp (.repCls isDotCh 1 none true), .alt (.ch fun c => c = '\n') .eos]

/-- Regex `/Allerg(?:y|ies)[^:\n]*[:\s]*([^,\n]+)/i`. -/
def reHAllergA : RE :=
  seqs [litCI "Allerg", .alt (litCI "y") (litCI "ies"), rep0 notColonNl,
    rep0 colonWs, .grp (rep1 notCommaNl)]

/-- Regex `/If any[^:\n]*[:\s]*([^,\n]+)/i`. -/
def reHAllergB : RE :=
  seqs [litCI "If any", rep0 notColonNl, rep0 colonWs, .grp (rep1 notCommaNl)]

/-- Regex `/Diabetic[^:\n]*[:\s]*([A-Za-z0-9\/\s]+)/i`. -/
def reHDiab : RE :=
  seqs [litCI "Diabetic", rep0 notColonNl, rep0 colonWs,
    .grp (rep1 clsWordSlash)]

/-- Regex `/Diet[:\s]*([A-Za-z0-9\/\s]+)/i`. -/
def reHDiet : RE :=
  seqs [litCI "Diet", rep0 colonWs, .grp (rep1 clsWordSlash)]

/-- Regex `/Medication\s*Given[:\s]*([^,\n]+)/i`. -/
def reHMed : RE :=
  seqs [litCI "Medication", rep0 isJsWs, litCI "Given", rep0 colonWs,
    .grp (rep1 notCommaNl)]

/-- Regex `/(?:BP|Blood Pressure)[^\d]*(\d{2,3}\/\d{2,3})/i`. -/
def reHBpA : RE :=
  seqs [.alt (litCI "BP") (litCI "Blood Pressure"),
    rep0 (fun c => !isDigit c),
    .grp (seqs [.repCls isDigit 2 (some 3) false, .ch (fun c => c = '/'),
      .repCls isDigit 2 (some 3) false])]

/-- Regex `/(BP)[:\s]*([0-9]{2,3}\/[0-9]{2,3})/i`; the code reads `m[1]`,
which is the text matched by `(BP)`. -/
def reHBpB : RE :=
  seqs [.grp (litCI "BP"), rep0 colonWs,
    seqs [.repCls isDigit 2 (some 3) false, .ch (fun c => c = '/'),
      .repCls isDigit 2 (some 3) false]]

/-- Regex `/BP[:\s]*([^,\n]+)/i`. -/
def reHBpC : RE := seqs [litCI "BP", rep0 colonWs, .grp (rep1 notCommaNl)]

/-- Regex `/Pulse[:\s]*([0-9]{2,3})/i`. -/
def rePulse : RE :=
  seqs [litCI "Pulse", rep0 colonWs, .grp (.repCls isDigit 2 (some 3) false)]

/-- Regex `/PR[:\s]*([0-9]{2,3})/i`. -/
def reHPr : RE :=
  seqs [litCI "PR", rep0 colonWs, .grp (.repCls isDigit 2 (some 3) false)]

/-- Regex `/Temp(?:erature)?[:\s]*([0-9]{2,3}\.?[0-9]?)/i`. -/
def reTemp : RE :=
  seqs [litCI "Temp", .opt (litCI "erature"), rep0 colonWs,
    .grp (seqs [.repCls isDigit 2 (some 3) false, .opt (.ch fun c => c = '.'),
      .opt (.ch isDigit)])]

/-- Regex `/RR[:\s]*([0-9]{2,3})/i`. -/
def reHRrA : RE :=
  seqs [litCI "RR", rep0 colonWs, .grp (.repCls isDigit 2 (some 3) false)]

/-- Regex `/Respiratory Rate[:\s]*([0-9]{1,3})/i`. -/
def reHRrB : RE :=
  seqs [litCI "Respiratory Rate", rep0 colonWs,
    .grp (.repCls isDigit 1 (some 3) false)]

/-- Regex `/SPO2[:\s]*([0-9]{2,3})%?/i`. -/
def reSpo2A : RE :=
  seqs [litCI "SPO2", rep0 colonWs, .grp (.repCls isDigit 2 (some 3) false),
    .opt (.ch fun c => c = '%')]

/-- Regex `/SpO2[:\s]*([0-9]{2,3})/i`. -/
def reSpo2B : RE :=
  seqs [litCI "SpO2", rep0 colonWs, .grp (.repCls isDigit 2 (some 3) false)]

/-- Regex `/Foley(?:s)?\s*Catheter[:\s]*([A-Za-z0-9\/\s]+)/i`. -/
def reHFoleys : RE :=
  seqs [litCI "Foley", .opt (litCI "s"), rep0 isJsWs, litCI "Catheter",
    rep0 colonWs, .grp (rep1 clsWordSlash)]

/-- Regex `/IV\s*Fluids[:\s]*([A-Za-z0-9\/\s]+)/i`. -/
def reHIv : RE :=
  seqs [litCI "IV", rep0 isJsWs, litCI "Fluids", rep0 colonWs,
    .grp (rep1 clsWordSlash)]

/-- Regex `/Blood\s*Transfusion[:\s]*([A-Za-z0-9\/\s]+)/i`. -/
def reHBlood : RE :=
  seqs [litCI "Blood", rep0 isJsWs, litCI "Transfusion", rep0 colonWs,
    .grp (rep1 clsWordSlash)]

/-- Regex `/Wound\s*Site[:\s]*([A-Za-z0-9\/\s]+)/i`. -/
def reHWound : RE :=
  seqs [litCI "Wound", rep0 isJsWs, litCI "Site", rep0 colonWs,
    .grp (rep1 clsWordSlash)]

/-- Regex `/Recommendation[s]?:[:\s]*([A-Za-z0-9\-\.,\/\s]+)/i` (note the
mandatory colon after the optional `s`). -/
def reHRecoA : RE :=
  seqs [litCI "Recommendation", .opt (chCI 's'), .ch (fun c => c = ':'),
    rep0 colonWs, .grp (rep1 clsReco)]

/-- Regex `/Any changes\s*\/\s*plan in the treatment[:\s]*([A-Za-z0-9\-\.,\/\s]+)/i`. -/
def reHRecoB : RE :=
  seqs [litCI "Any changes", rep0 isJsWs, .ch (fun c => c = '/'), rep0 isJsWs,
    litCI "plan in the treatment", rep0 colonWs, .grp (rep1 clsReco)]

/-- Regex `/Patient\s*Name[:\.\s\-_]{1,}([A-Za-z0-9\s,'\-\/]+)/i`. -/
def reCNameA : RE :=
  seqs [litCI "Patient", rep0 isJsWs, litCI "Name",
    .repCls clsCNameSep 1 none false, .grp (rep1 clsCName)]

/-- Regex `/Name[:\s]{1,}([A-Za-z0-9\s,'\-\/]+)/i`. -/
def reCNameB : RE :=
  seqs [litCI "Name", .repCls colonWs 1 none false, .grp (rep1 clsCName)]

/-- Regex `/Relative(?:'s)?\s*Name[:\s]*([A-Za-z0-9\s,'\-\/]+)/i`. -/
def reCRelA : RE :=
  seqs [litCI "Relative", .opt (.seq (.ch fun c => c = apos) (chCI 's')),
    rep0 isJsWs, litCI "Name", rep0 colonWs, .grp (rep1 clsCName)]

/-- Regex `/Relative[:\s]*([A-Za-z0-9\s,'\-\/]+)/i`. -/
def reCRelB : RE :=
  seqs [litCI "Relative", rep0 colonWs, .grp (rep1 clsCName)]

/-- Regex `/Contact(?:\s*No\.?| number)?[:\s]*([0-9\-\+\s]{6,})/i`. -/
def reCContactA : RE :=
  seqs [litCI "Contact",
    .opt (.alt (seqs [rep0 isJsWs, litCI "No", .opt (.ch fun c => c = '.')])
      (litCI " number")),
    rep0 colonWs, .grp (.repCls clsPhone 6 none false)]

/-- Regex `/Contact\s*No[:\s]*([0-9\-\+\s]{6,})/i`. -/
def reCContactB : RE :=
  seqs [litCI "Contact", rep0 isJsWs, litCI "No", rep0 colonWs,
    .grp (.repCls clsPhone 6 none false)]

/-- Regex `/Signature[:\s]*([A-Za-z0-9\s,'\-\/]+)/i`. -/
def reCSig : RE :=
  seqs [litCI "Signature", rep0 colonWs, .grp (rep1 clsCName)]

/-- Regex `/UHID\s*No[:\s]*([A-Za-z0-9\-\/]+)/i`. -/
def reCUhidB : RE :=
  seqs [litCI "UHID", rep0 isJsWs, litCI "No", rep0 colonWs,
    .grp (rep1 clsUhid)]

/-- Regex `/Date[:\s]*([0-3]?\d[\/\-\.\s][0-1]?\d[\/\-\.\s][0-9]{2,4})/i`. -/
def reCDateA : RE :=
  seqs [litCI "Date", rep0 colonWs,
    .grp (seqs [.opt (.ch fun c => '0' ≤ c && c ≤ '3'), .ch isDigit,
      .ch clsDSep, .opt (.ch fun c => c = '0' || c = '1'), .ch isDigit,
      .ch clsDSep, .repCls isDigit 2 (some 4) false])]

/-- Regex `/Date\s*of\s*Admission[:\s]*([A-Za-z0-9\/\-\s]+)/i`. -/
def reCDateB : RE :=
  seqs [litCI "Date", rep0 isJsWs, litCI "of", rep0 isJsWs, litCI "Admission",
    rep0 colonWs, .grp (rep1 clsDate2)]

/-- Regex `/Weight[:\s]*([0-9]{2,3}\.?[0-9]?)/i`. -/
def reCWeight : RE :=
  seqs [litCI "Weight", rep0 colonWs,
    .grp (seqs [.repCls isDigit 2 (some 3) false, .opt (.ch fun c => c = '.'),
      .opt (.ch isDigit)])]

/-- Regex `/BMI[:\s]*([0-9]{1,3}\.?[0-9]?)/i`. -/
def reCBmi : RE :=
  seqs [litCI "BMI", rep0 colonWs,
    .grp (seqs [.repCls isDigit 1 (some 3) false, .opt (.ch fun c => c = '.'),
      .opt (.ch isDigit)])]

/-- Regex `/(?:BP|Blood Pressure)[:\s]*([0-9]{2,3}\/[0-9]{2,3})/i`. -/
def reCBp : RE :=
  seqs [.alt (litCI "BP") (litCI "Blood Pressure"), rep0 colonWs,
    .grp (seqs [.repCls isDigit 2 (some 3) false, .ch (fun c => c = '/'),
      .repCls isDigit 2 (some 3) false])]

/-- Regex `/RR[:\s]*([0-9]{1,3})/i`. -/
def reCRr : RE :=
  seqs [litCI "RR", rep0 colonWs, .grp (.repCls isDigit 1 (some 3) false)]

/-- Regex `/Diagnosis[:\s]*([A-Za-z0-9\,\s\-\(\)\/]+)/i`. -/
def reCDiagA : RE :=
  seqs [litCI "Diagnosis", rep0 colonWs, .grp (rep1 clsDiag)]

/-- Regex `/Provisional Diagnosis[:\s]*([A-Za-z0-9\,\s\-\(\)\/]+)/i`. -/
def reCDiagB : RE :=
  seqs [litCI "Provisional Diagnosis", rep0 colonWs, .grp (rep1 clsDiag)]

/-- Regex `/Treatment[:\s]*([A-Za-z0-9\,\-\s]+)/i`. -/
def reCTreatA : RE :=
  seqs [litCI "Treatment", rep0 colonWs, .grp (rep1 clsTreat)]

/-- Regex `/Plan[:\s]*([A-Za-z0-9\,\-\s]+)/i`. -/
def reCTreatB : RE :=
  seqs [litCI "Plan", rep0 colonWs, .grp (rep1 clsTreat)]

/-- The separator class `[\s\.\:_-]` of the dot-leader direct regex. -/
def dlSep (c : Char) : Bool :=
  isJsWs c || c = '.' || c = ':' || c = '_' || c = '-'

/-- The direct regex `new RegExp(label + "[\s\.\:_-]{1,}([^\n]{1,120})", "i")`
for a label that is a plain literal — every label the code passes except
`"Diabetic|Diet"`, which is modelled separately by `reDiabeticDirect`. -/
def dlDirectRE (label : String) : RE :=
  .seq (litCI label)
    (.seq (.repCls dlSep 1 none false)
      (.grp (.repCls notNl 1 (some 120) false)))

/-- The direct regex built from the label `"Diabetic|Diet"`: the unescaped
`|` turns the pattern into the alternation
`Diabetic` | `Diet[\s\.\:_-]{1,}([^\n]{1,120})`, whose first branch has no
capture group. -/
def reDiabeticDirect : RE :=
  .alt (litCI "Diabetic")
    (.seq (litCI "Diet")
      (.seq (.repCls dlSep 1 none false)
        (.grp (.repCls notNl 1 (some 120) false))))

/-- Helper for `splitSeps`; `fuel` bounds the recursion (it is called with
fuel at least the list length, so the `0` case is never reached). -/
def splitSepsAux (minSp : Nat) : Nat → List Char → List Char → List (List Char)
  | 0, cur, rest => [cur.reverse ++ rest]
  | _ + 1, cur, [] => [cur.reverse]
  | fuel + 1, cur, c :: cs =>
    let dots := ((c :: cs).takeWhile fun x => x = '.').length
    if 3 ≤ dots then
      cur.reverse :: splitSepsAux minSp fuel [] ((c :: cs).drop dots)
    else
      let sps := ((c :: cs).takeWhile isJsWs).length
      if minSp ≤ sps then
        cur.reverse :: splitSepsAux minSp fuel [] ((c :: cs).drop sps)
      else splitSepsAux minSp fuel (c :: cur) cs

/-- Model of `line.split(/\.{3,}|\s{m,}/)` with `m = minSp` (4 in the
dot-leader fallback, 6 in `twoColumnExtract`): at each position a run of
three or more periods, or else a run of `minSp` or more whitespace
characters, is a separator; alternation order and greediness follow the
JS engine. -/
def splitSeps (minSp : Nat) (l : List Char) : List (List Char) :=
  splitSepsAux minSp l.length [] l

/-- The `parts` value of the fallback scans: split the line, trim each
part, keep the truthy (non-empty) ones. -/
def lineParts (minSp : Nat) (line : String) : List String :=
  ((splitSeps minSp line.data).map trimS).filter fun p => p ≠ ""

/-- The loop body of `extractByRegexList`. -/
def ebrlGo (text : String) : List RE → Option String
  | [] => none
  | r :: rs =>
    match jsMatch r text.data with
    | some (some g) => if g.isEmpty then ebrlGo text rs else some (trimS g)
    | _ => ebrlGo text rs

/-- `extractByRegexList` (App.jsx lines 96–103): `null` on empty text,
otherwise the trimmed `m[1]` of the first regex whose match has a truthy
(defined and non-empty) first group. -/
def extractByRegexList (text : String) (rs : List RE) : Option String :=
  if text = "" then none else ebrlGo text rs

/-- Result of the direct regex attempt of `dotLeaderExtract`:
`some (m[1].trim())` exactly when the match has a truthy `m[1]`. -/
def dlDirectVal (re : RE) (text : String) : Option String :=
  match jsMatch re text.data with
  | some (some g) => if g.isEmpty then none else some (trimS g)
  | _ => none

/-- One line of the fallback scan of `dotLeaderExtract` (lines 112–119):
if the line contains the label case-insensitively, split it on runs of
three-plus dots or four-plus whitespace; with at least two non-empty
parts, return the second if the first contains the label, else the first
if the second contains the label. -/
def dlLineVal (label line : String) : Option String :=
  if containsCI line label then
    match lineParts 4 line with
    | p0 :: p1 :: _ =>
      if containsCI p0 label then some p1
      else if containsCI p1 label then some p0
      else none
    | _ => none
  else none

/-- The fallback loop of `dotLeaderExtract` over `splitLines text`. -/
def dlScan (label : String) : List String → Option String
  | [] => none
  | l :: ls =>
    match dlLineVal label l with
    | some v => some v
    | none => dlScan label ls

/-- Core of `dotLeaderExtract` (App.jsx lines 105–122), parameterized by
the compiled direct regex (the code splices the label into the regex
source). -/
def dotLeaderExtractCore (re : RE) (text label : String) : Option String :=
  if text = "" then none
  else
    match dlDirectVal re text with
    | some v => some v
    | none => dlScan label (splitLines text)

/-- `dotLeaderExtract` for the plain literal labels. -/
def dotLeaderExtract (text label : String) : Option String :=
  dotLeaderExtractCore (dlDirectRE label) text label

/-- One line of `twoColumnExtract`: split on runs of three-plus dots or
six-plus whitespace; exactly two non-empty parts are required. -/
def tcLineVal (label line : String) : Option String :=
  match lineParts 6 line with
  | [p0, p1] =>
    if containsCI p0 label then some p1
    else if containsCI p1 label then some p0
    else none
  | _ => none

/-- The loop of `twoColumnExtract` over `splitLines text`. -/
def tcScan (label : String) : List String → Option String
  | [] => none
  | l :: ls =>
    match tcLineVal label l with
    | some v => some v
    | none => tcScan label ls

/-- `twoColumnExtract` (App.jsx lines 124–135). -/
def twoColumnExtract (text label : String) : Option String :=
  if text = "" then none else tcScan label (splitLines text)

/-- Core of the `pick` strategy chain of `parseHandover` (lines 156–164),
parameterized by the direct regex of the dot-leader attempt; each `if (v)`
of the code is a truthiness test. -/
def pickCore (re : RE) (full label : String) (more : List RE) : Option String :=
  let v1 := dotLeaderExtractCore re full label
  if jsTruthy v1 then v1
  else
    let v2 := twoColumnExtract full label
    if jsTruthy v2 then v2
    else
      let v3 := extractByRegexList full more
      if jsTruthy v3 then v3
      else none

/-- The `pick` policy for plain literal labels. -/
def pick (full label : String) (more : List RE) : Option String :=
  pickCore (dlDirectRE label) full label more

/-- The template kinds assigned by the classifier. -/
inductive Template where
  | handover : Template
  | consent : Template
  | unknown : Template
deriving DecidableEq

/-- Lower-case a string (model of `s.toLowerCase()`). -/
def lowAll (s : String) : String := ⟨lowList s.data⟩

/-- `detectTemplate` (App.jsx lines 138–148); `lowAll fullText` is the
local `low`. -/
def detectTemplate (fullText : String) : Template :=
  if containsStr (lowAll fullText) "handover sheet" ||
      containsStr (lowAll fullText) "handed over" ||
      containsStr (lowAll fullText) "patient condition" then .handover
  else if containsStr (lowAll fullText) "relative" ||
      containsStr (lowAll fullText) "signature" ||
      containsStr (lowAll fullText) "uhid" then .consent
  else .unknown

/-- A JSON-like field value: `null`, a string, or a nested field map
(an association list in insertion order, like a JS object literal). -/
inductive JVal where
  | null : JVal
  | str (s : String) : JVal
  | obj (fields : List (String × JVal)) : JVal

/-- Wrap an extraction result as a field value (`null` on a miss). -/
def jOpt : Option String → JVal
  | none => .null
  | some s => .str s

/-- `parseHandover` (App.jsx lines 150–199).  The object literal `out` is
an association list in insertion order.  The unused locals `sections` and
`secSplit` (lines 152–153) have no effect on the result and are omitted. -/
def parseHandover (fullText : String) : List (String × JVal) :=
  let full := normalizeText fullText
  let vitals : List (String × JVal) :=
    [("bp", jOpt (jsOr (extractByRegexList full [reHBpA, reHBpB])
        (extractByRegexList full [reHBpC]))),
     ("pulse", jOpt (extractByRegexList full [rePulse, reHPr])),
     ("temperature", jOpt (extractByRegexList full [reTemp])),
     ("rr", jOpt (extractByRegexList full [reHRrA, reHRrB])),
     ("spo2", jOpt (extractByRegexList full [reSpo2A, reSpo2B]))]
  [("patient_name", jOpt (pick full "Patient Name" [reHName])),
   ("uhid", jOpt (pick full "UHID" [reUhidA, reHUhidB])),
   ("date_of_admission", jOpt (pick full "Date of Admission" [reHDoa])),
   ("date_of_surgery", jOpt (pick full "Date of Surgery" [reHDos])),
   ("time", jOpt (pick full "Time" [reHTime])),
   ("age", jOpt (pick full "Age" [reHAge])),
   ("surgery_name", jOpt (pick full "Surgery Name" [reHSurgName])),
   ("patient_condition", jOpt (jsOr (pick full "Patient Condition" [reHPc])
     (if containsCI full "conscious" then some "Conscious / Oriented"
      else none))),
   ("allergies", jOpt (pick full "Allergies" [reHAllergA, reHAllergB])),
   ("diabetic_diet", jOpt (pickCore reDiabeticDirect full "Diabetic|Diet"
     [reHDiab, reHDiet])),
   ("medication_given", jOpt (pick full "Medication Given" [reHMed])),
   ("vitals", .obj vitals),
   ("foleys_catheter", jOpt (pick full "Foleys Catheter" [reHFoleys])),
   ("iv_fluids", jOpt (pick full "IV Fluids" [reHIv])),
   ("blood_transfusion", jOpt (pick full "Blood Transfusion" [reHBlood])),
   ("wound_site", jOpt (pick full "Wound Site" [reHWound])),
   ("recommendation", jOpt (pick full "Recommendation" [reHRecoA, reHRecoB]))]

/-- Model of `l.split(" ")` (split at every single space). -/
def splitSpAux (cur : List Char) : List Char → List (List Char)
  | [] => [cur.reverse]
  | c :: cs =>
    if c = ' ' then cur.reverse :: splitSpAux [] cs else splitSpAux (c :: cur) cs

/-- The "looks like a name line" filter of `parseConsent` (line 213):
at least two space-separated tokens, at least one letter, under 60
characters, and no "patient" substring. -/
def consentNameLine (l : String) : Bool :=
  2 ≤ (splitSpAux [] l.data).length && l.data.any isAlpha &&
  l.data.length < 60 && !containsCI l "patient"

/-- The fallback line scan assigning `out.patient_name` (lines 211–218). -/
def consentNameScan : List String → Option String
  | [] => none
  | l :: ls => if consentNameLine l then some l else consentNameScan ls

/-- `parseConsent` (App.jsx lines 201–236). -/
def parseConsent (fullText : String) : List (String × JVal) :=
  let text := normalizeText fullText
  let lines := splitLines text
  let pn0 := extractByRegexList text [reCNameA, reCNameB]
  let pn := if jsTruthy pn0 then pn0
    else
      match consentNameScan lines with
      | some l => some l
      | none => pn0
  [("patient_name", jOpt pn),
   ("relative_name", jOpt (extractByRegexList text [reCRelA, reCRelB])),
   ("relative_contact", jOpt (extractByRegexList text [reCContactA, reCContactB])),
   ("signature", jOpt (extractByRegexList text [reCSig])),
   ("uhid", jOpt (extractByRegexList text [reUhidA, reCUhidB])),
   ("date", jOpt (extractByRegexList text [reCDateA, reCDateB])),
   ("weight", jOpt (extractByRegexList text [reCWeight])),
   ("bmi", jOpt (extractByRegexList text [reCBmi])),
   ("pulse", jOpt (extractByRegexList text [rePulse])),
   ("bp", jOpt (extractByRegexList text [reCBp])),
   ("temp", jOpt (extractByRegexList text [reTemp])),
   ("rr", jOpt (extractByRegexList text [reCRr])),
   ("spo2", jOpt (extractByRegexList text [reSpo2A])),
   ("diagnosis", jOpt (extractByRegexList text [reCDiagA, reCDiagB])),
   ("treatment", jOpt (extractByRegexList text [reCTreatA, reCTreatB]))]

/-- The per-document field-map assembly of the orchestrator (`handleFiles`,
lines 269–280): normalize the OCR text once, classify it, and let the
template select the parser(s); `unknown` runs both parsers under the two
top-level keys. -/
def assembleFields (docText : String) : List (String × JVal) :=
  match detectTemplate (normalizeText docText) with
  | .handover => parseHandover (normalizeText docText)
  | .consent => parseConsent (normalizeText docText)
  | .unknown =>
    [("handover", .obj (parseHandover (normalizeText docText))),
     ("consent", .obj (parseConsent (normalizeText docText)))]

/-- The spec's handover keyword test on the case-folded text. -/
def hasHandoverKw (t : String) : Bool :=
  containsCI t "handover sheet" || containsCI t "handed over" ||
  containsCI t "patient condition"

/-- The spec's consent keyword test on the case-folded text. -/
def hasConsentKw (t : String) : Bool :=
  containsCI t "relative" || containsCI t "signature" || containsCI t "uhid"

/-- Stated from the amended C5: the first of the strategy results that is
a truthy (non-empty) string, `null` when none is. -/
def firstTruthy : List (Option String) → Option String
  | [] => none
  | v :: vs => if jsTruthy v then v else firstTruthy vs

/-- Is the value a scalar (string or null)? -/
def scalarOk : JVal → Bool
  | .null => true
  | .str _ => true
  | .obj _ => false

/-- The declared key order of the nested vitals map. -/
def vitalsKeys : List String := ["bp", "pulse", "temperature", "rr", "spo2"]

/-- The declared key order of the handover field map. -/
def handoverKeys : List String :=
  ["patient_name", "uhid", "date_of_admission", "date_of_surgery", "time",
   "age", "surgery_name", "patient_condition", "allergies", "diabetic_diet",
   "medication_given", "vitals", "foleys_catheter", "iv_fluids",
   "blood_transfusion", "wound_site", "recommendation"]

/-- Shape of the vitals value: an object with exactly the vitals keys in
order, all values scalar. -/
def vitalsOk : JVal → Bool
  | .obj l => l.map Prod.fst == vitalsKeys && l.all fun x => scalarOk x.2
  | _ => false

/-- Per-entry shape check of the handover field map: the `vitals` entry
holds the nested vitals object, every other entry is scalar. -/
def entryOk (e : String × JVal) : Bool :=
  if e.1 == "vitals" then vitalsOk e.2 else scalarOk e.2

/-- The regex `/(z*)/`: matches every string, possibly with an empty
capture. -/
def reGrpZstar : RE := .grp (.repCls (fun c => c = 'z') 0 none false)

/-- The regex `/(a)/`. -/
def reGrpA : RE := .grp (.ch fun c => c = 'a')

/-- The regex `/([0-9])/`. -/
def reGrpDigit : RE := .grp (.ch isDigit)

/-- The regex `/(\s+)/`: its capture is pure whitespace, which trims to
the empty string. -/
def reGrpWs : RE := .grp (.repCls isJsWs 1 none false)

/-- C1: the spec requires `normalizeText` to be idempotent, but the code
collapses whitespace runs *before* rewriting dot runs to `" ... "`, so a
second pass re-expands the already padded token and duplicates its
surrounding spaces: on `"a..b"` one pass yields `"a ... b"` while a second
pass yields `"a  ...  b"`. -/
theorem normalizeText_not_idempotent_on_dots :
    normalizeText (normalizeText "a..b") ≠ normalizeText "a..b" ∧
    normalizeText "a..b" = "a ... b" ∧
    normalizeText (normalizeText "a..b") = "a  ...  b" := by
  refine ⟨?_, by decide, by decide⟩
  decide

theorem dropWhile_eq_self_of_head (p : Char → Bool) (l : List Char)
    (h : ∀ c, l.head? = some c → p c = false) : l.dropWhile p = l := by
  cases l with
  | nil => rfl
  | cons c cs => simp [List.dropWhile_cons, h c rfl]

theorem head_dropWhile_false (p : Char → Bool) (l : List Char) (c : Char)
    (h : (l.dropWhile p).head? = some c) : p c = false := by
  induction l with
  | nil => simp at h
  | cons a as ih =>
    rw [List.dropWhile_cons] at h
    by_cases hp : p a = true
    · rw [if_pos hp] at h
      exact ih h
    · rw [if_neg hp] at h
      have : a = c := by simpa using h
      subst this
      simpa using hp

theorem getLast_dropWhile (p : Char → Bool) (l : List Char)
    (h : l.dropWhile p ≠ []) : (l.dropWhile p).getLast? = l.getLast? := by
  induction l with
  | nil => exact absurd rfl h
  | cons a as ih =>
    rw [List.dropWhile_cons] at h ⊢
    by_cases hp : p a = true
    · rw [if_pos hp] at h ⊢
      rw [ih h]
      have has : as ≠ [] := by
        intro he
        rw [he] at h
        exact h rfl
      cases as with
      | nil => exact absurd rfl has
      | cons b bs => rw [List.getLast?_cons_cons]
    · rw [if_neg hp]

theorem trimL_getLast_false (l : List Char) (c : Char)
    (h : (trimL l).getLast? = some c) : isJsWs c = false := by
  unfold trimL at h
  rw [List.getLast?_reverse] at h
  exact head_dropWhile_false _ _ _ h

theorem trimL_head_false (l : List Char) (c : Char)
    (h : (trimL l).head? = some c) : isJsWs c = false := by
  unfold trimL at h
  rw [List.head?_reverse] at h
  have hne : (l.dropWhile isJsWs).reverse.dropWhile isJsWs ≠ [] := by
    intro he
    rw [he] at h
    simp at h
  rw [getLast_dropWhile _ _ hne, List.getLast?_reverse] at h
  exact head_dropWhile_false _ _ _ h

theorem trimL_eq_self (l : List Char)
    (h1 : ∀ c, l.head? = some c → isJsWs c = false)
    (h2 : ∀ c, l.getLast? = some c → isJsWs c = false) : trimL l = l := by
  unfold trimL
  rw [dropWhile_eq_self_of_head _ _ h1]
  have e2 : l.reverse.dropWhile isJsWs = l.reverse := by
    apply dropWhile_eq_self_of_head
    intro c hc
    rw [List.head?_reverse] at hc
    exact h2 c hc
  rw [e2, List.reverse_reverse]

theorem trimL_idem (l : List Char) : trimL (trimL l) = trimL l :=
  trimL_eq_self _ (trimL_head_false l) (trimL_getLast_false l)

/-- C8: every segment returned by the line splitter is non-empty, already
trimmed (in particular it contains a non-whitespace character, so it is
not pure whitespace), and the returned list is a sublist — hence keeps the
original relative order — of the trimmed raw newline-split segments. -/
theorem splitLines_lines_clean (text : String) :
    (∀ s ∈ splitLines text,
      s ≠ "" ∧ trimStr s = s ∧ s.data.any (fun c => !isJsWs c) = true) ∧
    List.Sublist (splitLines text) ((rawSegments text).map trimStr) := by
  constructor
  · intro s hs
    unfold splitLines at hs
    obtain ⟨hmem, hne⟩ := List.mem_filter.mp hs
    have hne' : s ≠ "" := by simpa using hne
    obtain ⟨r, _, hrs⟩ := List.mem_map.mp hmem
    have htrim : trimStr s = s := by
      rw [← hrs]
      show (⟨trimL (trimL r.data)⟩ : String) = ⟨trimL r.data⟩
      rw [trimL_idem]
    refine ⟨hne', htrim, ?_⟩
    have hdata : trimL s.data = s.data := congrArg String.data htrim
    cases hsd : s.data with
    | nil =>
      exact absurd (by apply String.ext; rw [hsd]) hne'
    | cons c cs =>
      have hc : isJsWs c = false := by
        apply trimL_head_false s.data c
        rw [hdata, hsd]
        rfl
      simp [List.any_cons, hc]
  · unfold splitLines
    exact List.filter_sublist _

/-- C8 witness at a concrete input. -/
theorem splitLines_lines_clean_witness :
    "a" ∈ splitLines "a\n\n b " ∧
    ("a" ≠ "" ∧ trimStr "a" = "a" ∧
      "a".data.any (fun c => !isJsWs c) = true) :=
  ⟨by decide, (splitLines_lines_clean "a\n\n b ").1 "a" (by decide)⟩

theorem containsCI_lc (t kw : String) (h : lowList kw.data = kw.data) :
    containsCI t kw = containsStr (lowAll t) kw := by
  unfold containsCI containsStr lowAll
  rw [h]

/-- C3: the classifier checks the handover keyword set first and the
consent keyword set only when no handover keyword occurs, so any text
containing at least one handover keyword — even one that also contains
consent keywords — classifies as `handover`; texts with only consent
keywords classify as `consent`, and texts with neither as `unknown`. -/
theorem detectTemplate_rule (t : String) :
    (hasHandoverKw t = true → detectTemplate t = .handover) ∧
    (hasHandoverKw t = false → hasConsentKw t = true →
      detectTemplate t = .consent) ∧
    (hasHandoverKw t = false → hasConsentKw t = false →
      detectTemplate t = .unknown) := by
  have e1 := containsCI_lc t "handover sheet" (by decide)
  have e2 := containsCI_lc t "handed over" (by decide)
  have e3 := containsCI_lc t "patient condition" (by decide)
  have e4 := containsCI_lc t "relative" (by decide)
  have e5 := containsCI_lc t "signature" (by decide)
  have e6 := containsCI_lc t "uhid" (by decide)
  unfold hasHandoverKw hasConsentKw
  rw [e1, e2, e3, e4, e5, e6]
  unfold detectTemplate
  refine ⟨fun h => ?_, fun h1 h2 => ?_, fun h1 h2 => ?_⟩
  · simp [h]
  · simp only [Bool.or_eq_false_iff] at h1
    simp [h1.1.1, h1.1.2, h1.2, h2]
  · simp only [Bool.or_eq_false_iff] at h1 h2
    simp [h1.1.1, h1.1.2, h1.2, h2.1.1, h2.1.2, h2.2]

/-- C3 witness: a text containing both a handover keyword and a consent
keyword classifies as `handover`. -/
theorem detectTemplate_rule_witness :
    hasHandoverKw "Handover Sheet with signature" = true ∧
    hasConsentKw "Handover Sheet with signature" = true ∧
    detectTemplate "Handover Sheet with signature" = .handover :=
  ⟨by decide, by decide,
    (detectTemplate_rule "Handover Sheet with signature").1 (by decide)⟩

/-- C4 counterexample: with A = `/(z*)/` and B = `/(a)/` on `"ab"`, both
regexes match (`m[1]` of A is the empty string), yet the extraction
returns B's capture `"a"`, not A's trimmed capture `""` — the code skips
any match whose first group is falsy. -/
theorem extractByRegexList_counterexample :
    jsMatch reGrpZstar "ab".data = some (some []) ∧
    jsMatch reGrpA "ab".data = some (some ['a']) ∧
    extractByRegexList "ab" [reGrpZstar, reGrpA] = some "a" ∧
    (some "a" : Option String) ≠ some (trimS []) := by
  refine ⟨by decide, by decide, by decide, by decide⟩

/-- C4 (amended): on non-empty text, the extraction returns the trimmed
first capture of the first pattern in order whose match has a defined,
non-empty first capture group; in particular, whenever pattern A matches
with a non-empty capture, the result is A's trimmed capture and pattern B
is never consulted. -/
theorem extractByRegexList_first_nonempty (text : String) (A B : RE)
    (g : List Char) (h0 : text ≠ "")
    (h1 : jsMatch A text.data = some (some g)) (h2 : g ≠ []) :
    extractByRegexList text [A, B] = some (trimS g) := by
  unfold extractByRegexList ebrlGo
  rw [if_neg h0, h1]
  cases g with
  | nil => exact absurd rfl h2
  | cons c cs => rfl

/-- C4 witness at concrete regexes and text. -/
theorem extractByRegexList_first_nonempty_witness :
    ("a1" : String) ≠ "" ∧
    jsMatch reGrpDigit "a1".data = some (some ['1']) ∧
    (['1'] : List Char) ≠ [] ∧
    extractByRegexList "a1" [reGrpDigit, reGrpA] = some (trimS ['1']) :=
  ⟨by decide, by decide, by decide,
    extractByRegexList_first_nonempty "a1" reGrpDigit reGrpA ['1']
      (by decide) (by decide) (by decide)⟩

/-- C5 counterexample: with label `"zz"` and regex list `[/(\s+)/]` on
`"x y"`, the dot-leader and two-column strategies return null while the
regex-list strategy returns the non-null empty string, yet `pick` returns
null — each `if (v)` is a truthiness test that treats `""` as failure, so
`pick` does not return the first non-null result. -/
theorem pick_counterexample :
    dotLeaderExtract "x y" "zz" = none ∧
    twoColumnExtract "x y" "zz" = none ∧
    extractByRegexList "x y" [reGrpWs] = some "" ∧
    pick "x y" "zz" [reGrpWs] = none := by
  refine ⟨by decide, by decide, by decide, by decide⟩

/-- C5 (amended): `pick` tries dot-leader, two-column, then regex-list
extraction and returns the first result that is a truthy (non-empty)
string, returning null when every strategy yields null or an empty
string. -/
theorem pick_first_truthy (full label : String) (more : List RE) :
    pick full label more = firstTruthy
      [dotLeaderExtract full label, twoColumnExtract full label,
       extractByRegexList full more] := rfl

/-- C2 counterexample: with label `"Name"` and the single-line text
`"cc....NameX....dd"`, the direct regex fails, the line splits into three
non-empty parts, and the fallback still returns `"cc"` — the code tests
`parts.length >= 2`, not exactly two, and returns the first part because
the second contains the label. -/
theorem dotLeaderExtract_counterexample :
    dlDirectVal (dlDirectRE "Name") "cc....NameX....dd" = none ∧
    lineParts 4 "cc....NameX....dd" = ["cc", "NameX", "dd"] ∧
    dotLeaderExtract "cc....NameX....dd" "Name" = some "cc" := by
  refine ⟨by decide, by decide, by decide⟩

theorem dlScan_eq_findSome (label : String) (ls : List String) :
    dlScan label ls = ls.findSome? (dlLineVal label) := by
  induction ls with
  | nil => rfl
  | cons l ls ih =>
    unfold dlScan
    rw [List.findSome?_cons]
    cases dlLineVal label l with
    | none => exact ih
    | some v => rfl

/-- C2 (amended): when the direct label-anchored regex produces no truthy
capture, dot-leader extraction returns the value of the first line that
yields one, where a line containing the label (case-insensitive) yields a
value when its split on runs of three-or-more periods or four-or-more
whitespace characters has **two or more** non-empty parts: the second
part when the first contains the label, else the first part when the
second does, and nothing otherwise. -/
theorem dotLeaderExtract_fallback (text label : String) (h0 : text ≠ "")
    (h : dlDirectVal (dlDirectRE label) text = none) :
    dotLeaderExtract text label =
      (splitLines text).findSome? (dlLineVal label) := by
  unfold dotLeaderExtract dotLeaderExtractCore
  rw [if_neg h0, h]
  exact dlScan_eq_findSome label _

/-- C2 witness at a concrete input. -/
theorem dotLeaderExtract_fallback_witness :
    ("cc....NameX....dd" : String) ≠ "" ∧
    dlDirectVal (dlDirectRE "Name") "cc....NameX....dd" = none ∧
    dotLeaderExtract "cc....NameX....dd" "Name" =
      (splitLines "cc....NameX....dd").findSome? (dlLineVal "Name") :=
  ⟨by decide, by decide,
    dotLeaderExtract_fallback "cc....NameX....dd" "Name"
      (by decide) (by decide)⟩

/-- C6: when the normalized document text classifies as `unknown`, the
orchestrator's field map is exactly the two-entry map holding the full
handover and consent parses of that text, in that key order. -/
theorem assembleFields_unknown (doc : String)
    (h : detectTemplate (normalizeText doc) = .unknown) :
    assembleFields doc =
      [("handover", JVal.obj (parseHandover (normalizeText doc))),
       ("consent", JVal.obj (parseConsent (normalizeText doc)))] ∧
    (assembleFields doc).map Prod.fst = ["handover", "consent"] := by
  unfold assembleFields
  rw [h]
  exact ⟨rfl, rfl⟩

/-- C6 witness at a concrete unknown-template input. -/
theorem assembleFields_unknown_witness :
    detectTemplate (normalizeText "zz") = .unknown ∧
    (assembleFields "zz" =
      [("handover", JVal.obj (parseHandover (normalizeText "zz"))),
       ("consent", JVal.obj (parseConsent (normalizeText "zz")))] ∧
     (assembleFields "zz").map Prod.fst = ["handover", "consent"]) :=
  ⟨by decide, assembleFields_unknown "zz" (by decide)⟩

/-- C7: when the pick chain for patient_condition fails, the handover
parser defaults the field to `"Conscious / Oriented"` exactly when the
normalized text contains `"conscious"` (case-folded), and to null
otherwise. -/
theorem parseHandover_condition_fallback (t : String)
    (h : pick (normalizeText t) "Patient Condition" [reHPc] = none) :
    List.lookup "patient_condition" (parseHandover t) =
      some (if containsCI (normalizeText t) "conscious"
        then JVal.str "Conscious / Oriented" else JVal.null) := by
  have e : List.lookup "patient_condition" (parseHandover t) =
      some (jOpt (jsOr (pick (normalizeText t) "Patient Condition" [reHPc])
        (if containsCI (normalizeText t) "conscious"
          then some "Conscious / Oriented" else none))) := rfl
  rw [e, h]
  cases hc : containsCI (normalizeText t) "conscious" <;>
    simp [hc, jsOr, jsTruthy, jOpt]

/-- C7 witness: a text containing "conscious" with no extractable
"Patient Condition" label. -/
theorem parseHandover_condition_fallback_witness :
    pick (normalizeText "he is conscious") "Patient Condition" [reHPc] =
      none ∧
    List.lookup "patient_condition" (parseHandover "he is conscious") =
      some (if containsCI (normalizeText "he is conscious") "conscious"
        then JVal.str "Conscious / Oriented" else JVal.null) :=
  ⟨by decide, parseHandover_condition_fallback "he is conscious" (by decide)⟩

/-- C9: the embedded extraction core is pure, so both schema parsers are
deterministic — equal input texts produce equal field maps. -/
theorem parsers_deterministic (t1 t2 : String) (h : t1 = t2) :
    parseHandover t1 = parseHandover t2 ∧
    parseConsent t1 = parseConsent t2 := by
  subst h
  exact ⟨rfl, rfl⟩

/-- C9 witness at a concrete input. -/
theorem parsers_deterministic_witness :
    ("x" : String) = "x" ∧
    (parseHandover "x" = parseHandover "x" ∧
     parseConsent "x" = parseConsent "x") :=
  ⟨rfl, parsers_deterministic "x" "x" rfl⟩

theorem scalarOk_jOpt (o : Option String) : scalarOk (jOpt o) = true := by
  cases o <;> rfl

/-- C10: for every input text the handover field map has exactly the
seventeen declared keys in declaration order; every entry other than
`vitals` is a scalar (string or null), and `vitals` is a nested map with
exactly the keys bp, pulse, temperature, rr, spo2, each scalar — no key
is omitted on an extraction miss. -/
theorem parseHandover_shape (t : String) :
    (parseHandover t).map Prod.fst = handoverKeys ∧
    (parseHandover t).all entryOk = true := by
  refine ⟨rfl, ?_⟩
  show (parseHandover t).all entryOk = true
  simp only [parseHandover, List.all_cons, List.all_nil, Bool.and_true]
  simp [entryOk, vitalsOk, vitalsKeys, scalarOk_jOpt]

end SF
